import Mathlib

/-!
Shallow embedding of the virtualised vertical menu component
(`VerticalMenu`, `DataSourceScrollIndicator`, `DataSourceReflect`) from
`src/ftxui/component/menu.cpp`, together with the one-million-row example
DataSource from `examples/component/menu_datasource_1m.cpp`.

Machine integers (`int64_t`, `int`) are modelled as `Int`; none of the
verified code paths can overflow 64 bits on the inputs considered, and the
source treats ids as opaque signed 64-bit handles.  The C++ division
`-component_height / 2` truncates toward zero and is rendered as
`Int.tdiv`.  `move_id_by(id&, off) -> bool` mutates its reference and
returns a flag, so it is embedded as a function `Int -> Int -> Int × Bool`
returning the written-back id together with the flag.
-/

namespace FtxuiMenu

/-- The toolkit rectangle `ftxui::Box` (inclusive pixel bounds).  The box
model is an external collaborator of the core; only the fields used by
`menu.cpp` are carried. -/
structure Box where
  x_min : Int
  x_max : Int
  y_min : Int
  y_max : Int

/-- Modelled from the spec: the toolkit boundary operation
`Box::Contain(x, y)` — membership of a point in the inclusive rectangle.
The box implementation is outside the core (spec section 6 lists it as a
consumed interface). -/
def Box.Contain (b : Box) (x y : Int) : Bool :=
  decide (b.x_min ≤ x) && decide (x ≤ b.x_max) &&
  decide (b.y_min ≤ y) && decide (y ≤ b.y_max)

/-- Modelled from the spec: the toolkit boundary operation
`Box::Intersection` — component-wise intersection of two rectangles. -/
def Box.Intersection (a b : Box) : Box :=
  { x_min := max a.x_min b.x_min
    x_max := min a.x_max b.x_max
    y_min := max a.y_min b.y_min
    y_max := min a.y_max b.y_max }

/-- The slice of the toolkit `Requirement` record touched by the scroll
indicator decorator (`requirement_` in `menu.cpp`). -/
structure Requirement where
  min_x : Int
  min_y : Int
  flex_grow_y : Int
  flex_shrink_y : Int

/-- `struct ValidCount` (menu.cpp:68-72). -/
structure ValidCount where
  valid : Int
  first_visible : Int
  total : Int

/-- `move_id_by` of the example DataSource (menu_datasource_1m.cpp:81-88):
`from = std::max(0LL, std::min(from + offset, size - 1))`, returning `true`
iff the written-back id differs from the initial one.  With ids equal to
indices this is also the index-space normal form of any contract-satisfying
`move_id_by`. -/
def example_move_id_by (size fromId offset : Int) : Int × Bool :=
  let moved := max 0 (min (fromId + offset) (size - 1))
  (moved, moved != fromId)

/-- Index-space clamp: the index reached by `move_id_by(·, k)` from index
`i` in a dataset of `n` rows listed in navigation order. -/
def mvIdx (n i k : Int) : Int := max 0 (min (i + k) (n - 1))

/-- The DataSource `move_id_by` contract (spec section 4.A) for a dataset
whose rows are listed in navigation order by `f : index → RowId` over
indices `0 … n-1`: moving by `k` from an in-range id clamps the index at
both ends, the returned flag is true iff the id actually changed, and the
listing is strictly increasing (ids are totally ordered by navigation).
Ids need not be contiguous integers. -/
def ClampStep (m : Int → Int → Int × Bool) (n : Int) (f : Int → Int) : Prop :=
  (∀ i k, 0 ≤ i → i ≤ n - 1 →
      (m (f i) k).1 = f (mvIdx n i k) ∧ (m (f i) k).2 = (f (mvIdx n i k) != f i)) ∧
  (∀ i j, 0 ≤ i → i ≤ n - 1 → 0 ≤ j → j ≤ n - 1 → i < j → f i < f j)

/-- Repeated single forward `move_id_by(·, +1)` steps — the reachability
notion used by the spec for placement and for `real_start_id`. -/
def stepN (m : Int → Int → Int × Bool) : Nat → Int → Int
  | 0, id => id
  | k + 1, id => stepN m k (m id 1).1

/-- The backward ("prepend") loop of `VerticalMenu::find_start_id`
(menu.cpp:248-254): decrement `start_id` once per successful step until the
remaining budget `component_height - items_placed` (the fuel) is exhausted
or `move_id_by` reports no change.  The C++ reference is written back even
on the final failing step, so the moved value is returned. -/
def backLoop (m : Int → Int → Int × Bool) : Nat → Int → Int
  | 0, start_id => start_id
  | fuel + 1, start_id =>
    let r := m start_id (-1)
    if r.2 then backLoop m fuel r.1 else r.1

/-- The forward loop of `VerticalMenu::find_start_id` (menu.cpp:242-258),
with fuel `component_height - items_placed`.  When the forward walk runs
out of rows, `items_placed` is incremented once more (menu.cpp:245, the
"why increment here?" line) before the backward loop starts, hence the
backward loop receives `fuel`, not `fuel + 1`. -/
def fwdLoop (m : Int → Int → Int × Bool) : Nat → Int → Int → Int
  | 0, start_id, _id => start_id
  | fuel + 1, start_id, id =>
    let r := m id 1
    if r.2 then fwdLoop m fuel start_id r.1
    else backLoop m fuel start_id

/-- `VerticalMenu::find_start_id` (menu.cpp:237-260): bias the cursor by
`-component_height / 2` (C++ truncating division), then walk forward, and
on hitting the dataset end walk `start_id` backwards. -/
def find_start_id (m : Int → Int → Int × Bool) (component_height focused_id : Int) : Int :=
  let start_id := (m focused_id (Int.tdiv (-component_height) 2)).1
  fwdLoop m component_height.toNat start_id start_id

/-- The row-production loop of `VerticalMenu::Render` (menu.cpp:287-297),
abstracted to the list of row ids passed to `transform`: one row per
iteration while fewer than `component_height` rows were emitted, stopping
early when `move_id_by(id, 1)` returns false. -/
def renderProduce (m : Int → Int → Int × Bool) : Nat → Int → List Int
  | 0, _ => []
  | fuel + 1, id =>
    id :: (let r := m id 1; if r.2 then renderProduce m fuel r.1 else [])

/-- `VerticalMenu::Render` (menu.cpp:277-310) restricted to the data it
computes about the DataSource: caches `items_total = n`, computes
`estimated_start_id = find_start_id()`, and — when the dataset is non-empty
— produces one row id per emitted element.  Returns
`(estimated_start_id, produced ids)`; `items_produced` is the length of the
second component. -/
def renderPass (m : Int → Int → Int × Bool) (n component_height focused_id : Int) :
    Int × List Int :=
  let est := find_start_id m component_height focused_id
  (est, if n = 0 then [] else renderProduce m component_height.toNat est)

/-- Loop body accumulator of `VerticalMenu::count_valid_boxes`
(menu.cpp:262-275). -/
def countValidAux : List Box → Int → ValidCount → ValidCount
  | [], _, acc => acc
  | b :: rest, i, acc =>
    if b.y_max ≥ b.y_min then
      countValidAux rest (i + 1)
        { acc with
          valid := acc.valid + 1
          first_visible := if acc.first_visible = -1 then i else acc.first_visible }
    else countValidAux rest (i + 1) acc

/-- `VerticalMenu::count_valid_boxes` (menu.cpp:262-275): count the row
boxes with `y_max ≥ y_min` and record the index of the first such box
(`-1` when none). -/
def count_valid_boxes (boxes : List Box) : ValidCount :=
  countValidAux boxes 0 { valid := 0, first_visible := -1, total := (boxes.length : Int) }

/-- The glyph alphabet written by the scroll indicator
(menu.cpp:135-154): full line, bottom half line, top half line, blank. -/
inductive Glyph
  | full
  | halfBottom
  | halfTop
  | blank

/-- One `screen.PixelAt(x, y).character = g` write. -/
structure PixelWrite where
  x : Int
  y : Int
  glyph : Glyph

/-- The 32-bit float geometry of `DataSourceScrollIndicator::Render`
(menu.cpp:124-133) abstracted to exactly the integer truncations and
fraction-class tests the source consumes: `int(start_y)`, `int(end_y)`,
and the comparisons of the fractional parts against 0.25 and 0.75.
Floating-point arithmetic itself is not embedded; every claim proved below
about the indicator holds for all values of these parameters. -/
structure IndicatorGeom where
  iStart : Int
  iEnd : Int
  startFracLt25 : Bool
  endFracLt25 : Bool
  endFracLt75 : Bool

/-- Ascending list of the integers `a, a+1, …, b` (empty when `b < a`). -/
def intRange (a b : Int) : List Int :=
  (List.range (b + 1 - a).toNat).map fun j => a + (j : Int)

/-- The pixel writes of `DataSourceScrollIndicator::Render`
(menu.cpp:132-155), in source order: the start pixel (full or bottom-half
glyph by the fractional part of `start_y`), the end pixel when
`int(end_y) ≤ box_.y_max` (blank, top-half or full by the fractional part
of `end_y`), then full-line glyphs for every row strictly between
`int(start_y)` and `min(int(end_y) - 1, box_.y_max)` inclusive. -/
def indicatorWrites (box_ : Box) (g : IndicatorGeom) : List PixelWrite :=
  (if g.startFracLt25 then [⟨box_.x_max, g.iStart, Glyph.full⟩]
   else [⟨box_.x_max, g.iStart, Glyph.halfBottom⟩]) ++
  (if g.iEnd ≤ box_.y_max then
    [if g.endFracLt25 then ⟨box_.x_max, g.iEnd, Glyph.blank⟩
     else if g.endFracLt75 then ⟨box_.x_max, g.iEnd, Glyph.halfTop⟩
     else ⟨box_.x_max, g.iEnd, Glyph.full⟩]
   else []) ++
  (intRange (g.iStart + 1) (min (g.iEnd - 1) box_.y_max)).map
    (fun y => ⟨box_.x_max, y, Glyph.full⟩)

/-- The DataSource fields read and written by
`DataSourceScrollIndicator::Render` (menu.cpp:106-157). -/
structure IndicatorState where
  items_total : Int
  items_produced : Int
  estimated_start_id : Int
  real_start_id : Int
  items_visible : Int

/-- `DataSourceScrollIndicator::Render` (menu.cpp:106-157): a no-op when
`items_produced ≥ items_total`; otherwise it sets
`real_start_id := estimated_start_id + valid_count.first_visible` (plain
64-bit integer addition in the source, menu.cpp:119-120) and
`items_visible := valid_count.valid`, then draws the bar.
`count_items_before(real_start_id)` feeds only the float geometry, which is
abstracted by `IndicatorGeom`. -/
def indicatorRender (st : IndicatorState) (boxes_ : List Box) (box_ : Box)
    (g : IndicatorGeom) : IndicatorState × List PixelWrite :=
  if st.items_produced ≥ st.items_total then (st, [])
  else
    let valid_count := count_valid_boxes boxes_
    ({ st with
        real_start_id := st.estimated_start_id + valid_count.first_visible
        items_visible := valid_count.valid },
     indicatorWrites box_ g)

/-- `DataSourceScrollIndicator::ComputeRequirement` (menu.cpp:94-98):
copy the child requirement and increment `min_x`. -/
def indicatorComputeRequirement (childReq : Requirement) : Requirement :=
  { childReq with min_x := childReq.min_x + 1 }

/-- The box handed to the child by `DataSourceScrollIndicator::SetBox`
(menu.cpp:100-104): the decorator keeps `box` as its own `box_` and passes
the child a copy with `x_max` decremented. -/
def indicatorChildBox (box : Box) : Box :=
  { box with x_max := box.x_max - 1 }

/-- Output of `DataSourceReflect::Render` (menu.cpp:199-220): the updated
viewport measurements, the clipped box written back through the reflect
pointer, whether `invoke_redraw` was called this frame, and the
`should_redraw` flag after the step. -/
structure ReflectResult where
  component_height : Int
  screen_height : Int
  box : Box
  invoked : Bool
  should_redraw : Bool

/-- `DataSourceReflect::Render` (menu.cpp:199-220): records the screen
height, clips its box against the stencil, measures
`component_height = y_max - y_min + 1`, and calls `invoke_redraw` when
`should_redraw` is set or when not all rows are visible, the row count
exceeds the pane, and the pane is not exactly full; `should_redraw` is set
to false just before invoking. -/
def reflectRender (stencil box : Box) (screen_dimy : Int)
    (items_total items_produced : Int) (should_redraw : Bool) : ReflectResult :=
  let box2 := Box.Intersection stencil box
  let h := box2.y_max - box2.y_min + 1
  let all_items_visible : Bool := items_total == items_produced
  let rowcount_larger_than_component : Bool := decide (h < items_total)
  let menu_matched_rowcount : Bool := h == items_produced
  if should_redraw ||
      (!all_items_visible && rowcount_larger_than_component && !menu_matched_rowcount) then
    { component_height := h, screen_height := screen_dimy, box := box2
      invoked := true, should_redraw := false }
  else
    { component_height := h, screen_height := screen_dimy, box := box2
      invoked := false, should_redraw := should_redraw }

/-- The mouse button constants consumed by `VerticalMenu`
(`ftxui::Mouse::Button`). -/
inductive MouseButton
  | left
  | wheelUp
  | wheelDown
  | noneB
deriving DecidableEq

/-- The `event.mouse()` data consumed by `VerticalMenu`: coordinates and
button. -/
structure MouseEventData where
  x : Int
  y : Int
  button : MouseButton

/-- The mutable state touched by `VerticalMenu`'s mouse handlers: the
DataSource cursor fields together with the component's `box_` and the
per-row `boxes_` recorded by the last render. -/
structure MenuState where
  focused_id : Int
  hovered_id : Int
  estimated_start_id : Int
  real_start_id : Int
  items_visible : Int
  boxes_ : List Box
  box_ : Box

/-- The shared row-search of `VerticalMenu::mouse_click` / `mouse_move`
(menu.cpp:330-334 and 346-350): the index of the first row box that
contains the mouse and is not entirely below the pane's clipped bottom
(`boxes_[i].y_min > box_.y_max` skips the box). -/
def firstHitAux (boxes : List Box) (paneYMax x y : Int) (i : Nat) : Option Nat :=
  match boxes with
  | [] => none
  | b :: rest =>
    if b.Contain x y && !(decide (paneYMax < b.y_min)) then some i
    else firstHitAux rest paneYMax x y (i + 1)

/-- `VerticalMenu::mouse_wheel` (menu.cpp:312-326): wheel events inside
`box_` move `focused_id` by ±1 and are handled; wheel events outside the
box are rejected; non-wheel events fall through unhandled. -/
def mouse_wheel (m : Int → Int → Int × Bool) (st : MenuState) (e : MouseEventData) :
    MenuState × Bool :=
  if e.button = MouseButton.wheelDown ∨ e.button = MouseButton.wheelUp then
    if !(st.box_.Contain e.x e.y) then (st, false)
    else if e.button = MouseButton.wheelDown then
      ({ st with focused_id := (m st.focused_id 1).1 }, true)
    else
      ({ st with focused_id := (m st.focused_id (-1)).1 }, true)
  else (st, false)

/-- `VerticalMenu::mouse_click` (menu.cpp:328-343): on a left button event
whose coordinates hit a produced row box, set
`focused_id := estimated_start_id` moved forward by the row index (and take
focus, a toolkit effect outside this model). -/
def mouse_click (m : Int → Int → Int × Bool) (st : MenuState) (e : MouseEventData) :
    MenuState × Bool :=
  if e.button = MouseButton.left then
    match firstHitAux st.boxes_ st.box_.y_max e.x e.y 0 with
    | some i => ({ st with focused_id := (m st.estimated_start_id (i : Int)).1 }, true)
    | none => (st, false)
  else (st, false)

/-- `VerticalMenu::mouse_move` (menu.cpp:345-358): on a hit, set
`hovered_id := estimated_start_id` moved forward by the row index and
report true; on a miss, set `hovered_id := -1` (the "none" sentinel) and
report false. -/
def mouse_move (m : Int → Int → Int × Bool) (st : MenuState) (e : MouseEventData) :
    MenuState × Bool :=
  match firstHitAux st.boxes_ st.box_.y_max e.x e.y 0 with
  | some i => ({ st with hovered_id := (m st.estimated_start_id (i : Int)).1 }, true)
  | none => ({ st with hovered_id := -1 }, false)

/-- The mouse branch of `VerticalMenu::OnEvent` (menu.cpp:360-377) with
mouse capture granted: re-clamp `focused_id` through `move_id_by(·, 0)`,
then run `mouse_wheel || mouse_click || mouse_move` with C++
short-circuiting, starting from `ctx.handled = false`.  The returned flag
is the verdict of `data_->on_event(ctx)`; modelled from the spec for the
DataSource without an application hook: the handled flag is returned
directly (the default hook lives in a header outside src/). -/
def onMouseEvent (m : Int → Int → Int × Bool) (st : MenuState) (e : MouseEventData) :
    MenuState × Bool :=
  let st0 := { st with focused_id := (m st.focused_id 0).1 }
  let w := mouse_wheel m st0 e
  if w.2 then w
  else
    let c := mouse_click m w.1 e
    if c.2 then c
    else mouse_move m c.1 e

/-- The keyboard events handled by `VerticalMenu::OnEvent`
(menu.cpp:381-395); `other` stands for every other key. -/
inductive MenuKey
  | arrowUp
  | arrowDown
  | pageUp
  | pageDown
  | home
  | endKey
  | other
deriving DecidableEq

/-- Per-event toolkit context for a keyboard event: whether `CaptureMouse`
granted capture, whether the component holds keyboard focus, and the
`items_visible` page height read by PageUp/PageDown at that moment. -/
structure KeyCtx where
  captured : Bool
  compFocused : Bool
  height : Int

/-- The keyboard branch of `VerticalMenu::OnEvent` (menu.cpp:360-399)
restricted to its effect on `focused_id`: the cursor is first re-clamped
through `move_id_by(·, 0)` (menu.cpp:361, before the capture check); if
capture is denied the event is dropped; otherwise, when the component is
keyboard-focused, the arrow/page/home/end keys move the cursor through
`move_id_by`, Home and End jumping to `dataset_size()`'s
`starting_id` / `ending_id` followed by a re-clamp. -/
def onKeyEvent (m : Int → Int → Int × Bool) (starting_id ending_id : Int)
    (c : KeyCtx) (e : MenuKey) (focused : Int) : Int :=
  let focused := (m focused 0).1
  if !c.captured then focused
  else if c.compFocused then
    match e with
    | MenuKey.arrowUp => (m focused (-1)).1
    | MenuKey.arrowDown => (m focused 1).1
    | MenuKey.pageUp => (m focused (-c.height)).1
    | MenuKey.pageDown => (m focused c.height).1
    | MenuKey.home => (m starting_id 0).1
    | MenuKey.endKey => (m ending_id 0).1
    | MenuKey.other => focused
  else focused

/-- A finite sequence of keyboard events dispatched through
`VerticalMenu::OnEvent`, folded over `focused_id`. -/
def runKeys (m : Int → Int → Int × Bool) (starting_id ending_id : Int) :
    List (KeyCtx × MenuKey) → Int → Int
  | [], focused => focused
  | ce :: rest, focused =>
    runKeys m starting_id ending_id rest (onKeyEvent m starting_id ending_id ce.1 ce.2 focused)

/-- A contract-satisfying DataSource over the non-contiguous navigation
order `0, 10` (two rows whose ids are ten apart): `move_id_by` converts the
id to its index by truncating division, clamps the index step, and converts
back.  Used to separate plain integer addition on ids from forward
`move_id_by` steps. -/
def tens_move_id_by (fromId offset : Int) : Int × Bool :=
  let moved := 10 * mvIdx 2 (Int.tdiv fromId 10) offset
  (moved, moved != fromId)

/-! ## Helper lemmas -/

/-- The example `move_id_by` written through the index-space clamp. -/
theorem example_move_eq_mvIdx (n i k : Int) :
    example_move_id_by n i k = (mvIdx n i k, mvIdx n i k != i) := rfl

theorem ite_bne_true {α : Sort _} (a b : Int) (x y : α) (h : a ≠ b) :
    (if (a != b) = true then x else y) = x := by
  simp [bne_iff_ne, h]

theorem ite_bne_false {α : Sort _} (a b : Int) (x y : α) (h : a = b) :
    (if (a != b) = true then x else y) = y := by
  simp [h]

/-- The ids `0 … n-1` with the identity listing satisfy the `move_id_by`
contract: the example DataSource is its own index space. -/
theorem clampStep_example (n : Int) : ClampStep (example_move_id_by n) n (fun i => i) :=
  ⟨fun i k _ _ => ⟨rfl, rfl⟩, fun _ _ _ _ _ _ h => h⟩

/-- The two-row DataSource with ids `{0, 10}` satisfies the `move_id_by`
contract for the listing `i ↦ 10 * i`. -/
theorem clampStep_tens : ClampStep tens_move_id_by 2 (fun i => 10 * i) := by
  refine ⟨?_, ?_⟩
  · intro i k h0 h1
    have hi : i = 0 ∨ i = 1 := by omega
    have h10 : Int.tdiv (10 * (0 : Int)) 10 = 0 := by decide
    have h11 : Int.tdiv (10 * (1 : Int)) 10 = 1 := by decide
    rcases hi with hi | hi <;> subst hi
    · exact ⟨by simp only [tens_move_id_by, h10], by simp only [tens_move_id_by, h10]⟩
    · exact ⟨by simp only [tens_move_id_by, h11], by simp only [tens_move_id_by, h11]⟩
  · intro i j _ _ _ _ h
    simp only
    omega

/-- Closed form of the backward loop over the index space: it clamps
`s - fuel` at zero. -/
theorem backLoop_example (n : Int) (fuel : Nat) (s : Int) (h0 : 0 ≤ s) (h1 : s ≤ n - 1) :
    backLoop (example_move_id_by n) fuel s = max 0 (s - fuel) := by
  induction fuel generalizing s with
  | zero =>
    simp only [backLoop, Nat.cast_zero]
    omega
  | succ fuel ih =>
    have hcast : ((fuel + 1 : Nat) : Int) = (fuel : Int) + 1 := by push_cast; ring
    simp only [backLoop, example_move_eq_mvIdx]
    by_cases hs : 0 < s
    · have hv : mvIdx n s (-1) = s - 1 := by unfold mvIdx; omega
      rw [hv, ite_bne_true _ _ _ _ (by omega)]
      rw [ih (s - 1) (by omega) (by omega), hcast]
      omega
    · have hz : s = 0 := by omega
      subst hz
      have hv : mvIdx n 0 (-1) = 0 := by unfold mvIdx; omega
      rw [hv, ite_bne_false _ _ _ _ rfl, hcast]
      omega

/-- Closed form of the forward loop over the index space: with enough rows
below `id` the walk consumes all its fuel and `start` is returned
unchanged; otherwise the end of the dataset is reached, one unit of fuel is
consumed by the extra `items_placed++`, and the backward loop moves `start`
down by the remaining fuel, clamped at zero. -/
theorem fwdLoop_example (n : Int) (fuel : Nat) (start id : Int)
    (hs0 : 0 ≤ start) (hs1 : start ≤ n - 1) (hi0 : 0 ≤ id) (hi1 : id ≤ n - 1) :
    fwdLoop (example_move_id_by n) fuel start id =
      if (fuel : Int) ≤ n - 1 - id then start
      else max 0 (start - ((fuel : Int) - (n - 1 - id) - 1)) := by
  induction fuel generalizing id with
  | zero =>
    rw [if_pos (by simp; omega)]
    simp only [fwdLoop]
  | succ fuel ih =>
    have hcast : ((fuel + 1 : Nat) : Int) = (fuel : Int) + 1 := by push_cast; ring
    simp only [fwdLoop, example_move_eq_mvIdx]
    by_cases hid : id < n - 1
    · have hv : mvIdx n id 1 = id + 1 := by unfold mvIdx; omega
      rw [hv, ite_bne_true _ _ _ _ (by omega)]
      rw [ih (id + 1) (by omega) (by omega), hcast]
      by_cases hc : (fuel : Int) ≤ n - 1 - (id + 1)
      · rw [if_pos hc, if_pos (by omega)]
      · rw [if_neg hc, if_neg (by omega)]
        omega
    · have hideq : id = n - 1 := by omega
      subst hideq
      have hv : mvIdx n (n - 1) 1 = n - 1 := by unfold mvIdx; omega
      rw [hv, ite_bne_false _ _ _ _ rfl]
      rw [backLoop_example n fuel start hs0 hs1]
      rw [if_neg (by omega), hcast]
      omega

/-- The C++ truncating division `-H / 2` as a Euclidean division for
`H ≥ 0`. -/
theorem tdiv_neg_half (H : Int) (hH : 0 ≤ H) : Int.tdiv (-H) 2 = -(H / 2) := by
  rw [Int.neg_tdiv, Int.tdiv_eq_ediv hH (by omega)]

/-- Closed form of `find_start_id` over the index space. -/
theorem find_start_id_example (n H i : Int) (hn : 1 ≤ n) (hi0 : 0 ≤ i) (hi1 : i ≤ n - 1)
    (hH : 0 ≤ H) :
    find_start_id (example_move_id_by n) H i =
      if H ≤ n - 1 - max 0 (i - H / 2) then max 0 (i - H / 2)
      else max 0 (n - H) := by
  have hd := tdiv_neg_half H hH
  have hdiv : 0 ≤ H / 2 ∧ H / 2 ≤ H := by omega
  simp only [find_start_id, example_move_eq_mvIdx]
  have hstart : mvIdx n i (Int.tdiv (-H) 2) = max 0 (i - H / 2) := by
    unfold mvIdx; omega
  rw [hstart]
  have hmem : 0 ≤ max 0 (i - H / 2) ∧ max 0 (i - H / 2) ≤ n - 1 := by omega
  rw [fwdLoop_example n H.toNat _ _ hmem.1 hmem.2 hmem.1 hmem.2]
  have hcast : ((H.toNat : Nat) : Int) = H := Int.toNat_of_nonneg hH
  rw [hcast]
  by_cases hc : H ≤ n - 1 - max 0 (i - H / 2)
  · rw [if_pos hc, if_pos hc]
  · rw [if_neg hc, if_neg hc]
    omega

/-- Placement properties of `find_start_id` over the index space: the
returned index is in range, at or before the cursor, within
`max (H-1) 0` forward steps of it, and equals the cursor when `H ≤ 1`. -/
theorem find_start_id_example_props (n H i : Int) (hn : 1 ≤ n) (hi0 : 0 ≤ i)
    (hi1 : i ≤ n - 1) (hH : 0 ≤ H) :
    0 ≤ find_start_id (example_move_id_by n) H i ∧
    find_start_id (example_move_id_by n) H i ≤ i ∧
    i - find_start_id (example_move_id_by n) H i ≤ max (H - 1) 0 ∧
    (H ≤ 1 → find_start_id (example_move_id_by n) H i = i) := by
  rw [find_start_id_example n H i hn hi0 hi1 hH]
  by_cases hc : H ≤ n - 1 - max 0 (i - H / 2)
  · rw [if_pos hc]
    omega
  · rw [if_neg hc]
    omega

/-- `k` forward steps over the index space clamp at the last row. -/
theorem stepN_example (n : Int) (k : Nat) (s : Int) (h0 : 0 ≤ s) (h1 : s ≤ n - 1) :
    stepN (example_move_id_by n) k s = min (s + k) (n - 1) := by
  induction k generalizing s with
  | zero =>
    simp only [stepN, Nat.cast_zero]
    omega
  | succ k ih =>
    have hcast : ((k + 1 : Nat) : Int) = (k : Int) + 1 := by push_cast; ring
    have hv : (example_move_id_by n s 1).1 = min (s + 1) (n - 1) := by
      rw [example_move_eq_mvIdx]; unfold mvIdx; simp only; omega
    rw [stepN, hv, ih (min (s + 1) (n - 1)) (by omega) (by omega), hcast]
    omega

/-- The listing of a contract-satisfying DataSource is injective on the
index range. -/
theorem clampStep_inj {m : Int → Int → Int × Bool} {n : Int} {f : Int → Int}
    (hc : ClampStep m n f) {a b : Int} (ha0 : 0 ≤ a) (ha1 : a ≤ n - 1)
    (hb0 : 0 ≤ b) (hb1 : b ≤ n - 1) (h : f a = f b) : a = b := by
  rcases lt_trichotomy a b with hlt | heq | hgt
  · exact absurd h (ne_of_lt (hc.2 a b ha0 ha1 hb0 hb1 hlt))
  · exact heq
  · exact absurd h.symm (ne_of_lt (hc.2 b a hb0 hb1 ha0 ha1 hgt))

/-- Id inequality mirrors index inequality for in-range indices. -/
theorem clampStep_bne {m : Int → Int → Int × Bool} {n : Int} {f : Int → Int}
    (hc : ClampStep m n f) {a b : Int} (ha0 : 0 ≤ a) (ha1 : a ≤ n - 1)
    (hb0 : 0 ≤ b) (hb1 : b ≤ n - 1) : (f a != f b) = (a != b) := by
  by_cases heq : a = b
  · subst heq; simp
  · have hfne : f a ≠ f b := fun h => heq (clampStep_inj hc ha0 ha1 hb0 hb1 h)
    rw [Bool.eq_iff_iff]
    simp only [bne_iff_ne]
    exact ⟨fun _ => heq, fun _ => hfne⟩

theorem mvIdx_bounds (n i k : Int) (hn : 1 ≤ n) : 0 ≤ mvIdx n i k ∧ mvIdx n i k ≤ n - 1 := by
  unfold mvIdx; omega

theorem mvIdx_zero (n j : Int) (h0 : 0 ≤ j) (h1 : j ≤ n - 1) : mvIdx n j 0 = j := by
  unfold mvIdx; omega

theorem clampStep_mono_le {m : Int → Int → Int × Bool} {n : Int} {f : Int → Int}
    (hc : ClampStep m n f) {a b : Int} (ha0 : 0 ≤ a) (hb1 : b ≤ n - 1) (hab : a ≤ b) :
    f a ≤ f b := by
  rcases eq_or_lt_of_le hab with heq | hlt
  · exact le_of_eq (congrArg f heq)
  · exact le_of_lt (hc.2 a b ha0 (by omega) (by omega) hb1 hlt)

/-- The backward loop of any contract-satisfying DataSource is the image
under its listing of the index-space backward loop. -/
theorem backLoop_sim {m : Int → Int → Int × Bool} {n : Int} {f : Int → Int}
    (hc : ClampStep m n f) (fuel : Nat) (s : Int) (h0 : 0 ≤ s) (h1 : s ≤ n - 1) :
    backLoop m fuel (f s) = f (backLoop (example_move_id_by n) fuel s) := by
  have hn : 1 ≤ n := by omega
  induction fuel generalizing s with
  | zero => simp only [backLoop]
  | succ fuel ih =>
    obtain ⟨hm1, hm2⟩ := hc.1 s (-1) h0 h1
    have hr : m (f s) (-1) = (f (mvIdx n s (-1)), f (mvIdx n s (-1)) != f s) := by
      rw [Prod.ext_iff]; exact ⟨hm1, hm2⟩
    obtain ⟨hv0, hv1⟩ := mvIdx_bounds n s (-1) hn
    simp only [backLoop, example_move_eq_mvIdx, hr]
    rw [clampStep_bne hc hv0 hv1 h0 h1]
    by_cases heq : mvIdx n s (-1) = s
    · rw [ite_bne_false _ _ _ _ heq, ite_bne_false _ _ _ _ heq]
    · rw [ite_bne_true _ _ _ _ heq, ite_bne_true _ _ _ _ heq]
      exact ih (mvIdx n s (-1)) hv0 hv1

/-- The forward loop of any contract-satisfying DataSource is the image
under its listing of the index-space forward loop. -/
theorem fwdLoop_sim {m : Int → Int → Int × Bool} {n : Int} {f : Int → Int}
    (hc : ClampStep m n f) (fuel : Nat) (a b : Int) (ha0 : 0 ≤ a) (ha1 : a ≤ n - 1)
    (hb0 : 0 ≤ b) (hb1 : b ≤ n - 1) :
    fwdLoop m fuel (f a) (f b) = f (fwdLoop (example_move_id_by n) fuel a b) := by
  have hn : 1 ≤ n := by omega
  induction fuel generalizing b with
  | zero => simp only [fwdLoop]
  | succ fuel ih =>
    obtain ⟨hm1, hm2⟩ := hc.1 b 1 hb0 hb1
    have hr : m (f b) 1 = (f (mvIdx n b 1), f (mvIdx n b 1) != f b) := by
      rw [Prod.ext_iff]; exact ⟨hm1, hm2⟩
    obtain ⟨hv0, hv1⟩ := mvIdx_bounds n b 1 hn
    simp only [fwdLoop, example_move_eq_mvIdx, hr]
    rw [clampStep_bne hc hv0 hv1 hb0 hb1]
    by_cases heq : mvIdx n b 1 = b
    · rw [ite_bne_false _ _ _ _ heq, ite_bne_false _ _ _ _ heq]
      exact backLoop_sim hc fuel a ha0 ha1
    · rw [ite_bne_true _ _ _ _ heq, ite_bne_true _ _ _ _ heq]
      exact ih (mvIdx n b 1) hv0 hv1

/-- `find_start_id` of any contract-satisfying DataSource is the image
under its listing of the index-space `find_start_id`. -/
theorem find_start_id_sim {m : Int → Int → Int × Bool} {n : Int} {f : Int → Int}
    (hc : ClampStep m n f) (H i : Int) (hi0 : 0 ≤ i) (hi1 : i ≤ n - 1) :
    find_start_id m H (f i) = f (find_start_id (example_move_id_by n) H i) := by
  have hn : 1 ≤ n := by omega
  obtain ⟨hm1, _⟩ := hc.1 i (Int.tdiv (-H) 2) hi0 hi1
  obtain ⟨hv0, hv1⟩ := mvIdx_bounds n i (Int.tdiv (-H) 2) hn
  simp only [find_start_id, example_move_eq_mvIdx, hm1]
  exact fwdLoop_sim hc H.toNat _ _ hv0 hv1 hv0 hv1

/-- Forward stepping of any contract-satisfying DataSource is the image
under its listing of index-space forward stepping. -/
theorem stepN_sim {m : Int → Int → Int × Bool} {n : Int} {f : Int → Int}
    (hc : ClampStep m n f) (k : Nat) (s : Int) (h0 : 0 ≤ s) (h1 : s ≤ n - 1) :
    stepN m k (f s) = f (stepN (example_move_id_by n) k s) := by
  have hn : 1 ≤ n := by omega
  induction k generalizing s with
  | zero => simp only [stepN]
  | succ k ih =>
    obtain ⟨hm1, _⟩ := hc.1 s 1 h0 h1
    obtain ⟨hv0, hv1⟩ := mvIdx_bounds n s 1 hn
    simp only [stepN, example_move_eq_mvIdx, hm1]
    exact ih (mvIdx n s 1) hv0 hv1

/-- The render walk of any contract-satisfying DataSource is the image
under its listing of the index-space render walk. -/
theorem renderProduce_sim {m : Int → Int → Int × Bool} {n : Int} {f : Int → Int}
    (hc : ClampStep m n f) (fuel : Nat) (s : Int) (h0 : 0 ≤ s) (h1 : s ≤ n - 1) :
    renderProduce m fuel (f s) = (renderProduce (example_move_id_by n) fuel s).map f := by
  have hn : 1 ≤ n := by omega
  induction fuel generalizing s with
  | zero => simp only [renderProduce, List.map_nil]
  | succ fuel ih =>
    obtain ⟨hm1, hm2⟩ := hc.1 s 1 h0 h1
    have hr : m (f s) 1 = (f (mvIdx n s 1), f (mvIdx n s 1) != f s) := by
      rw [Prod.ext_iff]; exact ⟨hm1, hm2⟩
    obtain ⟨hv0, hv1⟩ := mvIdx_bounds n s 1 hn
    simp only [renderProduce, example_move_eq_mvIdx, hr, List.map_cons]
    rw [clampStep_bne hc hv0 hv1 h0 h1]
    by_cases heq : mvIdx n s 1 = s
    · rw [ite_bne_false _ _ _ _ heq, ite_bne_false _ _ _ _ heq]
      simp only [List.map_nil]
    · rw [ite_bne_true _ _ _ _ heq, ite_bne_true _ _ _ _ heq]
      rw [ih (mvIdx n s 1) hv0 hv1]

/-- The index-space render walk emits at most `fuel` rows and at most the
number of rows from the start index to the dataset end. -/
theorem renderProduce_example_length (n : Int) (fuel : Nat) (s : Int)
    (h0 : 0 ≤ s) (h1 : s ≤ n - 1) :
    (renderProduce (example_move_id_by n) fuel s).length ≤ fuel ∧
    ((renderProduce (example_move_id_by n) fuel s).length : Int) ≤ n - s := by
  induction fuel generalizing s with
  | zero => simp [renderProduce]; omega
  | succ fuel ih =>
    obtain ⟨hv0, hv1⟩ := mvIdx_bounds n s 1 (by omega)
    simp only [renderProduce, example_move_eq_mvIdx]
    by_cases heq : mvIdx n s 1 = s
    · rw [ite_bne_false _ _ _ _ heq]
      simp
      omega
    · rw [ite_bne_true _ _ _ _ heq]
      have hstep : mvIdx n s 1 = s + 1 := by unfold mvIdx at *; omega
      obtain ⟨hl1, hl2⟩ := ih (mvIdx n s 1) hv0 hv1
      constructor
      · simp only [List.length_cons]
        omega
      · simp only [List.length_cons]
        push_cast
        omega

/-- No row box contains the mouse: the shared search of `mouse_click` /
`mouse_move` finds nothing. -/
theorem firstHitAux_none (boxes : List Box) (paneYMax x y : Int)
    (h : ∀ b ∈ boxes, b.Contain x y = false) :
    ∀ i, firstHitAux boxes paneYMax x y i = none := by
  induction boxes with
  | nil => intro i; rfl
  | cons b rest ih =>
    intro i
    have hb := h b (List.mem_cons_self b rest)
    simp only [firstHitAux, hb, Bool.false_and]
    rw [if_neg Bool.false_ne_true]
    exact ih (fun b2 hb2 => h b2 (List.mem_cons_of_mem b hb2)) (i + 1)

/-- `mouse_wheel` rejects every event that is not a wheel event inside the
pane box, leaving the state untouched. -/
theorem mouse_wheel_skip (m : Int → Int → Int × Bool) (st : MenuState) (e : MouseEventData)
    (hw : ¬((e.button = MouseButton.wheelUp ∨ e.button = MouseButton.wheelDown) ∧
        st.box_.Contain e.x e.y = true)) :
    mouse_wheel m st e = (st, false) := by
  unfold mouse_wheel
  by_cases hb : e.button = MouseButton.wheelDown ∨ e.button = MouseButton.wheelUp
  · rw [if_pos hb]
    have hc : st.box_.Contain e.x e.y = false := by
      cases hcc : st.box_.Contain e.x e.y
      · rfl
      · exact absurd ⟨hb.symm, hcc⟩ hw
    rw [hc]
    simp
  · rw [if_neg hb]

/-- `mouse_click` misses when no row box contains the mouse. -/
theorem mouse_click_miss (m : Int → Int → Int × Bool) (st : MenuState) (e : MouseEventData)
    (hmiss : ∀ b ∈ st.boxes_, b.Contain e.x e.y = false) :
    mouse_click m st e = (st, false) := by
  unfold mouse_click
  have hnone := firstHitAux_none st.boxes_ st.box_.y_max e.x e.y hmiss 0
  by_cases hb : e.button = MouseButton.left
  · rw [if_pos hb, hnone]
  · rw [if_neg hb]

/-- `mouse_move` on a miss writes the sentinel `-1` into `hovered_id` and
reports false. -/
theorem mouse_move_miss (m : Int → Int → Int × Bool) (st : MenuState) (e : MouseEventData)
    (hmiss : ∀ b ∈ st.boxes_, b.Contain e.x e.y = false) :
    mouse_move m st e = ({ st with hovered_id := -1 }, false) := by
  unfold mouse_move
  rw [firstHitAux_none st.boxes_ st.box_.y_max e.x e.y hmiss 0]

/-- Full mouse dispatch on an event that no subhandler accepts: the only
state changes are the initial `move_id_by(focused_id, 0)` re-clamp and
`hovered_id := -1`, and the event is reported unhandled. -/
theorem onMouseEvent_miss (m : Int → Int → Int × Bool) (st : MenuState) (e : MouseEventData)
    (hw : ¬((e.button = MouseButton.wheelUp ∨ e.button = MouseButton.wheelDown) ∧
        st.box_.Contain e.x e.y = true))
    (hmiss : ∀ b ∈ st.boxes_, b.Contain e.x e.y = false) :
    onMouseEvent m st e =
      ({ st with focused_id := (m st.focused_id 0).1, hovered_id := -1 }, false) := by
  have h1 : mouse_wheel m { st with focused_id := (m st.focused_id 0).1 } e =
      ({ st with focused_id := (m st.focused_id 0).1 }, false) :=
    mouse_wheel_skip m _ e hw
  have h2 : mouse_click m { st with focused_id := (m st.focused_id 0).1 } e =
      ({ st with focused_id := (m st.focused_id 0).1 }, false) :=
    mouse_click_miss m _ e hmiss
  have h3 : mouse_move m { st with focused_id := (m st.focused_id 0).1 } e =
      ({ st with focused_id := (m st.focused_id 0).1, hovered_id := -1 }, false) :=
    mouse_move_miss m _ e hmiss
  simp only [onMouseEvent, h1, h2, h3, Bool.false_eq_true, if_false]

/-- One keyboard event sends an in-range cursor id to an in-range cursor
id, for every capture/focus context and page height. -/
theorem onKeyEvent_mem (m : Int → Int → Int × Bool) (n : Int) (f : Int → Int)
    (hc : ClampStep m n f) (hn : 1 ≤ n) (c : KeyCtx) (e : MenuKey)
    (j : Int) (hj0 : 0 ≤ j) (hj1 : j ≤ n - 1) :
    ∃ j2, 0 ≤ j2 ∧ j2 ≤ n - 1 ∧ onKeyEvent m (f 0) (f (n - 1)) c e (f j) = f j2 := by
  have hclamp : (m (f j) 0).1 = f j := by
    rw [(hc.1 j 0 hj0 hj1).1, mvIdx_zero n j hj0 hj1]
  have h0m : (m (f 0) 0).1 = f 0 := by
    rw [(hc.1 0 0 (by omega) (by omega)).1, mvIdx_zero n 0 (by omega) (by omega)]
  have hlm : (m (f (n - 1)) 0).1 = f (n - 1) := by
    rw [(hc.1 (n - 1) 0 (by omega) (by omega)).1, mvIdx_zero n (n - 1) (by omega) (by omega)]
  simp only [onKeyEvent, hclamp]
  by_cases hcap : c.captured = true
  · simp only [hcap, Bool.not_true, Bool.false_eq_true, if_false]
    by_cases hfocd : c.compFocused = true
    · simp only [hfocd, if_true]
      cases e with
      | arrowUp =>
        exact ⟨mvIdx n j (-1), (mvIdx_bounds n j (-1) hn).1, (mvIdx_bounds n j (-1) hn).2,
          (hc.1 j (-1) hj0 hj1).1⟩
      | arrowDown =>
        exact ⟨mvIdx n j 1, (mvIdx_bounds n j 1 hn).1, (mvIdx_bounds n j 1 hn).2,
          (hc.1 j 1 hj0 hj1).1⟩
      | pageUp =>
        exact ⟨mvIdx n j (-c.height), (mvIdx_bounds n j (-c.height) hn).1,
          (mvIdx_bounds n j (-c.height) hn).2, (hc.1 j (-c.height) hj0 hj1).1⟩
      | pageDown =>
        exact ⟨mvIdx n j c.height, (mvIdx_bounds n j c.height hn).1,
          (mvIdx_bounds n j c.height hn).2, (hc.1 j c.height hj0 hj1).1⟩
      | home => exact ⟨0, le_refl 0, by omega, h0m⟩
      | endKey => exact ⟨n - 1, by omega, le_refl (n - 1), hlm⟩
      | other => exact ⟨j, hj0, hj1, rfl⟩
    · simp only [eq_false_of_ne_true hfocd, Bool.false_eq_true, if_false]
      exact ⟨j, hj0, hj1, rfl⟩
  · simp only [eq_false_of_ne_true hcap, Bool.not_false, if_true]
    exact ⟨j, hj0, hj1, rfl⟩

/-- A sequence of keyboard events sends an in-range cursor id to an
in-range cursor id. -/
theorem runKeys_mem (m : Int → Int → Int × Bool) (n : Int) (f : Int → Int)
    (hc : ClampStep m n f) (hn : 1 ≤ n) (es : List (KeyCtx × MenuKey)) :
    ∀ j, 0 ≤ j → j ≤ n - 1 →
      ∃ j2, 0 ≤ j2 ∧ j2 ≤ n - 1 ∧ runKeys m (f 0) (f (n - 1)) es (f j) = f j2 := by
  induction es with
  | nil => exact fun j h0 h1 => ⟨j, h0, h1, rfl⟩
  | cons ce rest ih =>
    intro j h0 h1
    obtain ⟨j2, h20, h21, he⟩ := onKeyEvent_mem m n f hc hn ce.1 ce.2 j h0 h1
    obtain ⟨j3, h30, h31, he3⟩ := ih j2 h20 h21
    refine ⟨j3, h30, h31, ?_⟩
    rw [runKeys, he, he3]

/-! ## Claim theorems -/

/-- Claim C1, counterexample: a DataSource satisfying the `move_id_by`
contract whose ids are `{0, 10}` (not contiguous).  In a frame where the
scroll indicator is drawn (`items_produced = 1 < 2 = items_total`, first
valid child at index 1), the code sets
`real_start_id = estimated_start_id + first_visible = 0 + 1 = 1` by plain
integer addition, but one forward `move_id_by` step from
`estimated_start_id = 0` reaches id `10`, not `1`.  So `real_start_id` is
not the id obtained by `first_visible` forward `move_id_by` steps. -/
theorem real_start_id_not_reached_by_steps :
    ClampStep tens_move_id_by 2 (fun i => 10 * i) ∧
    (IndicatorState.mk 2 1 0 0 0).items_produced < (IndicatorState.mk 2 1 0 0 0).items_total ∧
    (count_valid_boxes [Box.mk 0 5 3 2, Box.mk 0 5 3 3]).first_visible = 1 ∧
    (indicatorRender (IndicatorState.mk 2 1 0 0 0) [Box.mk 0 5 3 2, Box.mk 0 5 3 3]
        (Box.mk 0 6 0 5) (IndicatorGeom.mk 0 1 true true true)).1.real_start_id = 1 ∧
    stepN tens_move_id_by 1 (IndicatorState.mk 2 1 0 0 0).estimated_start_id = 10 ∧
    ((1 : Int) = 10 → False) :=
  ⟨clampStep_tens, by decide, by decide, by decide, by decide, by decide⟩

/-- Claim C1 (amended): after every frame in which the scroll indicator is
drawn (`items_produced < items_total`), `real_start_id` equals
`estimated_start_id + valid_count.first_visible` by plain 64-bit integer
addition (which coincides with `first_visible` forward `move_id_by` steps
only when the ids are contiguous integers), and `items_visible` is set to
`valid_count.valid`. -/
theorem real_start_id_is_integer_addition (st : IndicatorState) (boxes_ : List Box)
    (box_ : Box) (g : IndicatorGeom) (h : st.items_produced < st.items_total) :
    (indicatorRender st boxes_ box_ g).1.real_start_id =
      st.estimated_start_id + (count_valid_boxes boxes_).first_visible ∧
    (indicatorRender st boxes_ box_ g).1.items_visible = (count_valid_boxes boxes_).valid := by
  unfold indicatorRender
  rw [if_neg (by omega)]
  exact ⟨rfl, rfl⟩

/-- Witness for `real_start_id_is_integer_addition` on the two-box frame
used in the counterexample. -/
theorem real_start_id_is_integer_addition_witness :
    (indicatorRender (IndicatorState.mk 2 1 0 0 0) [Box.mk 0 5 3 2, Box.mk 0 5 3 3]
        (Box.mk 0 6 0 5) (IndicatorGeom.mk 0 1 true true true)).1.real_start_id =
      (IndicatorState.mk 2 1 0 0 0).estimated_start_id +
        (count_valid_boxes [Box.mk 0 5 3 2, Box.mk 0 5 3 3]).first_visible ∧
    (indicatorRender (IndicatorState.mk 2 1 0 0 0) [Box.mk 0 5 3 2, Box.mk 0 5 3 3]
        (Box.mk 0 6 0 5) (IndicatorGeom.mk 0 1 true true true)).1.items_visible =
      (count_valid_boxes [Box.mk 0 5 3 2, Box.mk 0 5 3 3]).valid :=
  real_start_id_is_integer_addition (IndicatorState.mk 2 1 0 0 0)
    [Box.mk 0 5 3 2, Box.mk 0 5 3 3] (Box.mk 0 6 0 5) (IndicatorGeom.mk 0 1 true true true)
    (by decide)

/-- Claim C2: for every DataSource whose `move_id_by` is a clamping step
function over ids `f 0 < f 1 < … < f (n-1)`, every in-range cursor
`f i` and every pane height `H ≥ 0`, `find_start_id` returns an id from
which repeated single forward `move_id_by` steps reach the cursor in at
most `H - 1` steps, or the cursor itself when `H ≤ 1`. -/
theorem find_start_id_reaches_focused (m : Int → Int → Int × Bool) (n : Int) (f : Int → Int)
    (hc : ClampStep m n f) (i H : Int) (hi0 : 0 ≤ i) (hi1 : i ≤ n - 1) (hH : 0 ≤ H) :
    (H ≤ 1 ∧ find_start_id m H (f i) = f i) ∨
    (∃ k : Nat, (k : Int) ≤ H - 1 ∧ stepN m k (find_start_id m H (f i)) = f i) := by
  have hn : 1 ≤ n := by omega
  have hsim := find_start_id_sim hc H i hi0 hi1
  obtain ⟨hp0, hp1, hp2, hp3⟩ := find_start_id_example_props n H i hn hi0 hi1 hH
  by_cases hH1 : H ≤ 1
  · left
    exact ⟨hH1, by rw [hsim, hp3 hH1]⟩
  · right
    set sIdx := find_start_id (example_move_id_by n) H i with hsdef
    refine ⟨(i - sIdx).toNat, by omega, ?_⟩
    rw [hsim, stepN_sim hc _ sIdx hp0 (by omega)]
    rw [stepN_example n _ sIdx hp0 (by omega)]
    congr 1
    omega

/-- Witness for `find_start_id_reaches_focused`: `n = 5`, `H = 3`,
cursor `2`. -/
theorem find_start_id_reaches_focused_witness :
    ((3 : Int) ≤ 1 ∧ find_start_id (example_move_id_by 5) 3 2 = 2) ∨
    (∃ k : Nat, (k : Int) ≤ 3 - 1 ∧
      stepN (example_move_id_by 5) k (find_start_id (example_move_id_by 5) 3 2) = 2) :=
  find_start_id_reaches_focused (example_move_id_by 5) 5 (fun i => i) (clampStep_example 5)
    2 3 (by decide) (by decide) (by decide)

/-- Claim C3: with the integer-clamp DataSource on one million rows, pane
height 10 and cursor 999998, `find_start_id` returns 999990, aligning the
last dataset row with the bottom pane line; the value depends on the extra
`items_placed++` performed when the forward walk hits the dataset end. -/
theorem find_start_id_tail_anchor :
    find_start_id (example_move_id_by 1000000) 10 999998 = 999990 := by decide

/-- Claim C4: during the reflect step, `invoke_redraw` is called iff
`should_redraw` is set or all of `items_total ≠ items_produced`,
`items_total > component_height` and `component_height ≠ items_produced`
hold (with `component_height` the height just measured from the clipped
box), and whenever it is called, `should_redraw` is cleared. -/
theorem reflect_redraw_iff (stencil box : Box) (dimy t p : Int) (sr : Bool) :
    ((reflectRender stencil box dimy t p sr).invoked = true ↔
      (sr = true ∨ (t ≠ p ∧
        (Box.Intersection stencil box).y_max - (Box.Intersection stencil box).y_min + 1 < t ∧
        (Box.Intersection stencil box).y_max - (Box.Intersection stencil box).y_min + 1 ≠ p))) ∧
    ((reflectRender stencil box dimy t p sr).invoked = true →
      (reflectRender stencil box dimy t p sr).should_redraw = false) := by
  simp only [reflectRender]
  split
  next hcond =>
    simp only [Bool.or_eq_true, Bool.and_eq_true, Bool.not_eq_true', beq_eq_false_iff_ne,
      decide_eq_true_eq] at hcond
    exact ⟨iff_of_true rfl (by tauto), fun _ => rfl⟩
  next hcond =>
    simp only [Bool.or_eq_true, Bool.and_eq_true, Bool.not_eq_true', beq_eq_false_iff_ne,
      decide_eq_true_eq] at hcond
    push_neg at hcond
    exact ⟨iff_of_false (by simp) (by tauto), fun h => absurd h (by simp)⟩

/-- Witness for `reflect_redraw_iff`: a frame with `should_redraw` set
invokes the redraw and clears the flag. -/
theorem reflect_redraw_iff_witness :
    (reflectRender (Box.mk 0 80 0 24) (Box.mk 0 80 0 9) 25 100 10 true).should_redraw = false :=
  (reflect_redraw_iff (Box.mk 0 80 0 24) (Box.mk 0 80 0 9) 25 100 10 true).2 (by decide)

/-- Claim C5, counterexample: a wheel event outside the pane box does not
leave all viewport state unchanged.  Concrete frame: `hovered_id = 7`
before the event, mouse at `(20, 20)` outside the pane `[0,10] × [0,5]`;
the dispatch rejects the event (handled is false) but `mouse_move` still
runs and overwrites `hovered_id` with the sentinel `-1 ≠ 7`. -/
theorem wheel_outside_pane_changes_state :
    (MenuState.mk 3 7 0 0 10 [Box.mk 0 9 1 1] (Box.mk 0 10 0 5)).box_.Contain 20 20 = false ∧
    (MenuState.mk 3 7 0 0 10 [Box.mk 0 9 1 1] (Box.mk 0 10 0 5)).hovered_id = 7 ∧
    (onMouseEvent (example_move_id_by 100)
        (MenuState.mk 3 7 0 0 10 [Box.mk 0 9 1 1] (Box.mk 0 10 0 5))
        (MouseEventData.mk 20 20 MouseButton.wheelUp)).1.hovered_id = -1 ∧
    (onMouseEvent (example_move_id_by 100)
        (MenuState.mk 3 7 0 0 10 [Box.mk 0 9 1 1] (Box.mk 0 10 0 5))
        (MouseEventData.mk 20 20 MouseButton.wheelUp)).2 = false ∧
    ((-1 : Int) = 7 → False) := by decide

/-- Claim C5 (amended): a WheelUp/WheelDown event outside the pane box
(capture granted, `focused_id` an in-range id, no produced row box
containing the mouse) is rejected and leaves `focused_id`,
`estimated_start_id` and `real_start_id` unchanged; `hovered_id` however is
rewritten to the `-1` sentinel by the fall-through `mouse_move` stage. -/
theorem wheel_outside_pane_rejected (m : Int → Int → Int × Bool) (n : Int) (f : Int → Int)
    (hc : ClampStep m n f) (st : MenuState) (e : MouseEventData)
    (hbtn : e.button = MouseButton.wheelUp ∨ e.button = MouseButton.wheelDown)
    (hout : st.box_.Contain e.x e.y = false)
    (hmiss : ∀ b ∈ st.boxes_, b.Contain e.x e.y = false)
    (i : Int) (hi0 : 0 ≤ i) (hi1 : i ≤ n - 1) (hfoc : st.focused_id = f i) :
    (onMouseEvent m st e).1.focused_id = st.focused_id ∧
    (onMouseEvent m st e).1.estimated_start_id = st.estimated_start_id ∧
    (onMouseEvent m st e).1.real_start_id = st.real_start_id ∧
    (onMouseEvent m st e).1.hovered_id = -1 ∧
    (onMouseEvent m st e).2 = false := by
  have hw : ¬((e.button = MouseButton.wheelUp ∨ e.button = MouseButton.wheelDown) ∧
      st.box_.Contain e.x e.y = true) := by
    rintro ⟨-, hcc⟩
    rw [hout] at hcc
    exact Bool.false_ne_true hcc
  rw [onMouseEvent_miss m st e hw hmiss]
  refine ⟨?_, rfl, rfl, rfl, rfl⟩
  show (m st.focused_id 0).1 = st.focused_id
  rw [hfoc, (hc.1 i 0 hi0 hi1).1, mvIdx_zero n i hi0 hi1]

/-- Witness for `wheel_outside_pane_rejected` on the counterexample
frame. -/
theorem wheel_outside_pane_rejected_witness :
    (onMouseEvent (example_move_id_by 100)
        (MenuState.mk 3 7 0 0 10 [Box.mk 0 9 1 1] (Box.mk 0 10 0 5))
        (MouseEventData.mk 20 20 MouseButton.wheelUp)).1.focused_id =
      (MenuState.mk 3 7 0 0 10 [Box.mk 0 9 1 1] (Box.mk 0 10 0 5)).focused_id ∧
    (onMouseEvent (example_move_id_by 100)
        (MenuState.mk 3 7 0 0 10 [Box.mk 0 9 1 1] (Box.mk 0 10 0 5))
        (MouseEventData.mk 20 20 MouseButton.wheelUp)).1.estimated_start_id =
      (MenuState.mk 3 7 0 0 10 [Box.mk 0 9 1 1] (Box.mk 0 10 0 5)).estimated_start_id ∧
    (onMouseEvent (example_move_id_by 100)
        (MenuState.mk 3 7 0 0 10 [Box.mk 0 9 1 1] (Box.mk 0 10 0 5))
        (MouseEventData.mk 20 20 MouseButton.wheelUp)).1.real_start_id =
      (MenuState.mk 3 7 0 0 10 [Box.mk 0 9 1 1] (Box.mk 0 10 0 5)).real_start_id ∧
    (onMouseEvent (example_move_id_by 100)
        (MenuState.mk 3 7 0 0 10 [Box.mk 0 9 1 1] (Box.mk 0 10 0 5))
        (MouseEventData.mk 20 20 MouseButton.wheelUp)).1.hovered_id = -1 ∧
    (onMouseEvent (example_move_id_by 100)
        (MenuState.mk 3 7 0 0 10 [Box.mk 0 9 1 1] (Box.mk 0 10 0 5))
        (MouseEventData.mk 20 20 MouseButton.wheelUp)).2 = false :=
  wheel_outside_pane_rejected (example_move_id_by 100) 100 (fun i => i)
    (clampStep_example 100)
    (MenuState.mk 3 7 0 0 10 [Box.mk 0 9 1 1] (Box.mk 0 10 0 5))
    (MouseEventData.mk 20 20 MouseButton.wheelUp)
    (Or.inl rfl) (by decide) (by decide) 3 (by decide) (by decide) rfl

/-- Claim C6, counterexample: in the example DataSource with
`items_total = 2`, id `1` is in range and `k = 1` satisfies
`|k| ≤ items_total`, yet stepping `+1` clamps at the end and stepping `-1`
then lands on `0`, not the original id. -/
theorem roundtrip_fails_at_end :
    (0 : Int) ≤ 1 ∧ (1 : Int) ≤ 2 - 1 ∧ (1 : Int) ≤ 2 ∧
    (example_move_id_by 2 (example_move_id_by 2 1 1).1 (-1)).1 = 0 ∧
    (example_move_id_by 2 (example_move_id_by 2 1 1).1 (-1)).1 ≠ 1 := by decide

/-- Claim C6 (amended): for the example integer-clamp DataSource, stepping
`+k` and then `-k` from an in-range id `i` returns `i` provided the first
step does not clamp, i.e. `i + k` itself lies in `[0, N-1]`. -/
theorem roundtrip_of_unclamped_step (n i k : Int) (hi0 : 0 ≤ i) (hi1 : i ≤ n - 1)
    (hk0 : 0 ≤ i + k) (hk1 : i + k ≤ n - 1) :
    (example_move_id_by n (example_move_id_by n i k).1 (-k)).1 = i := by
  simp [example_move_id_by]
  omega

/-- Witness for `roundtrip_of_unclamped_step`: `n = 5`, `i = 2`,
`k = 2`. -/
theorem roundtrip_of_unclamped_step_witness :
    (example_move_id_by 5 (example_move_id_by 5 2 2).1 (-2)).1 = 2 :=
  roundtrip_of_unclamped_step 5 2 2 (by decide) (by decide) (by decide) (by decide)

/-- Claim C7: after every render pass with pane height `H ≥ 0` over a
contract-satisfying DataSource (cursor in range, or dataset empty),
`0 ≤ items_produced ≤ min(component_height, items_total)`, and an empty
dataset produces zero children. -/
theorem render_produced_bounded (m : Int → Int → Int × Bool) (n : Int) (f : Int → Int)
    (hc : ClampStep m n f) (H focused : Int) (hH : 0 ≤ H)
    (hfoc : n = 0 ∨ ∃ i, 0 ≤ i ∧ i ≤ n - 1 ∧ focused = f i) :
    0 ≤ ((renderPass m n H focused).2.length : Int) ∧
    ((renderPass m n H focused).2.length : Int) ≤ min H n ∧
    (n = 0 → (renderPass m n H focused).2 = []) := by
  rcases hfoc with hn0 | ⟨i, hi0, hi1, hfe⟩
  · subst hn0
    refine ⟨by simp [renderPass], ?_, fun _ => by simp [renderPass]⟩
    simp [renderPass]
    omega
  · have hn : 1 ≤ n := by omega
    subst hfe
    simp only [renderPass]
    rw [if_neg (by omega)]
    rw [find_start_id_sim hc H i hi0 hi1]
    obtain ⟨hp0, hp1, _, _⟩ := find_start_id_example_props n H i hn hi0 hi1 hH
    set sIdx := find_start_id (example_move_id_by n) H i with hsdef
    rw [renderProduce_sim hc H.toNat sIdx hp0 (by omega)]
    rw [List.length_map]
    obtain ⟨hl1, hl2⟩ := renderProduce_example_length n H.toNat sIdx hp0 (by omega)
    exact ⟨by omega, by omega, fun h => absurd h (by omega)⟩

/-- Witness for `render_produced_bounded`: `n = 5`, `H = 3`,
cursor `2`. -/
theorem render_produced_bounded_witness :
    0 ≤ ((renderPass (example_move_id_by 5) 5 3 2).2.length : Int) ∧
    ((renderPass (example_move_id_by 5) 5 3 2).2.length : Int) ≤ min 3 5 ∧
    ((5 : Int) = 0 → (renderPass (example_move_id_by 5) 5 3 2).2 = []) :=
  render_produced_bounded (example_move_id_by 5) 5 (fun i => i) (clampStep_example 5) 3 2
    (by decide) (Or.inr ⟨2, by decide, by decide, rfl⟩)

/-- Claim C8: for every non-empty dataset whose `move_id_by` clamps into
the navigation range (listing `f`), any finite sequence of keyboard events
dispatched through `OnEvent` — arrows, page keys, Home, End or any other
key, under any capture/focus context and page height — keeps `focused_id`
within `[starting_id, ending_id] = [f 0, f (n-1)]`, starting from any
in-range cursor. -/
theorem keyboard_focus_in_range (m : Int → Int → Int × Bool) (n : Int) (f : Int → Int)
    (hc : ClampStep m n f) (hn : 1 ≤ n) (es : List (KeyCtx × MenuKey))
    (i0 : Int) (h00 : 0 ≤ i0) (h01 : i0 ≤ n - 1) :
    f 0 ≤ runKeys m (f 0) (f (n - 1)) es (f i0) ∧
    runKeys m (f 0) (f (n - 1)) es (f i0) ≤ f (n - 1) := by
  obtain ⟨j, hj0, hj1, hje⟩ := runKeys_mem m n f hc hn es i0 h00 h01
  rw [hje]
  exact ⟨clampStep_mono_le hc (le_refl 0) hj1 hj0,
    clampStep_mono_le hc hj0 (le_refl (n - 1)) hj1⟩

/-- Witness for `keyboard_focus_in_range`: three rows, ArrowDown then
End. -/
theorem keyboard_focus_in_range_witness :
    (0 : Int) ≤ runKeys (example_move_id_by 3) 0 (3 - 1)
      [(KeyCtx.mk true true 1, MenuKey.arrowDown), (KeyCtx.mk true true 1, MenuKey.endKey)] 1 ∧
    runKeys (example_move_id_by 3) 0 (3 - 1)
      [(KeyCtx.mk true true 1, MenuKey.arrowDown), (KeyCtx.mk true true 1, MenuKey.endKey)] 1
      ≤ 3 - 1 :=
  keyboard_focus_in_range (example_move_id_by 3) 3 (fun i => i) (clampStep_example 3)
    (by decide)
    [(KeyCtx.mk true true 1, MenuKey.arrowDown), (KeyCtx.mk true true 1, MenuKey.endKey)]
    1 (by decide) (by decide)

/-- Claim C9: the scroll-indicator decorator reserves exactly one terminal
column: it increments the child's `min_x` requirement by one, hands the
child a box whose `x_max` is one less than its own, and every glyph it
writes (for every viewport state, box list, box and float geometry) goes to
column `x = box_.x_max` — no other column is ever written. -/
theorem indicator_single_column :
    (∀ r : Requirement, indicatorComputeRequirement r = { r with min_x := r.min_x + 1 }) ∧
    (∀ b : Box, indicatorChildBox b = { b with x_max := b.x_max - 1 }) ∧
    (∀ st boxes_ box_ g,
      ((indicatorRender st boxes_ box_ g).2).all (fun w => w.x == box_.x_max) = true) := by
  refine ⟨fun r => rfl, fun b => rfl, fun st boxes_ box_ g => ?_⟩
  unfold indicatorRender
  split
  · rfl
  · show (indicatorWrites box_ g).all (fun w => w.x == box_.x_max) = true
    simp only [indicatorWrites, List.all_append, Bool.and_eq_true]
    refine ⟨⟨?_, ?_⟩, ?_⟩
    · split <;> simp
    · split
      · split
        · simp
        · split <;> simp
      · rfl
    · rw [List.all_eq_true]
      intro w hw
      simp only [List.mem_map] at hw
      obtain ⟨y, -, hy⟩ := hw
      rw [← hy]
      simp

/-- Claim C10: the "none" sentinel for `hovered_id` is the concrete value
`-1`: on every captured mouse event that is not a wheel inside the pane,
when no produced row box contains the mouse coordinates (so in particular
no left click lands on a row), `mouse_move` sets `hovered_id` to `-1` and
the dispatch reports no hit. -/
theorem mouse_miss_resets_hover (m : Int → Int → Int × Bool) (st : MenuState)
    (e : MouseEventData)
    (hw : ¬((e.button = MouseButton.wheelUp ∨ e.button = MouseButton.wheelDown) ∧
        st.box_.Contain e.x e.y = true))
    (hmiss : ∀ b ∈ st.boxes_, b.Contain e.x e.y = false) :
    (onMouseEvent m st e).1.hovered_id = -1 ∧ (onMouseEvent m st e).2 = false := by
  rw [onMouseEvent_miss m st e hw hmiss]
  exact ⟨rfl, rfl⟩

/-- Witness for `mouse_miss_resets_hover`: a left click inside the pane
that misses the single produced row box. -/
theorem mouse_miss_resets_hover_witness :
    (onMouseEvent (example_move_id_by 100)
        (MenuState.mk 3 7 0 0 10 [Box.mk 0 9 1 1] (Box.mk 0 10 0 5))
        (MouseEventData.mk 4 4 MouseButton.left)).1.hovered_id = -1 ∧
    (onMouseEvent (example_move_id_by 100)
        (MenuState.mk 3 7 0 0 10 [Box.mk 0 9 1 1] (Box.mk 0 10 0 5))
        (MouseEventData.mk 4 4 MouseButton.left)).2 = false :=
  mouse_miss_resets_hover (example_move_id_by 100)
    (MenuState.mk 3 7 0 0 10 [Box.mk 0 9 1 1] (Box.mk 0 10 0 5))
    (MouseEventData.mk 4 4 MouseButton.left) (by decide) (by decide)

end FtxuiMenu
